import Mathlib

/-!
# Verification of the memcached wire-protocol codec and workload generator

A shallow embedding of `src/apps/synthetic/src/memcached.rs`: the 24-byte
binary protocol header codec, the key encoder, the two workload models
(USR/uniform and ETC/empirical), the key-size memory, the request builders
and the response reader.  Machine integers are modelled as `Nat` with
explicit `% 2^w` where the Rust code casts or wraps; byte buffers are
`List Nat`; the fallible reader returns `Except`.
-/

namespace Memcached

/-- `Transport` selector: `Tcp` is the stream transport, `Udp` the datagram
transport (the Rust `Transport` enum consumed by this module). -/
inductive Transport where
  | Tcp : Transport
  | Udp : Transport
deriving DecidableEq, Repr

/-- Errors produced by the response path.  The Rust code uses `io::Error`
with distinguishable kinds/messages: `UnexpectedEof` from an exhausted
reader or a zero-length receive, "Short packet received" for a datagram
shorter than 8 bytes, "Bad magic number in response header" from
`PacketHeader::read`, the wrapped body-drain failure on TCP, and
"Not NoError" for a non-zero status. -/
inductive McError where
  | eof : McError
  | shortPacket : Nat → McError
  | badMagic : Nat → McError
  | bodyReadFailed : Nat → McError
  | statusNotOk : Nat → McError
deriving DecidableEq, Repr

/-- The 24-byte protocol header (`struct PacketHeader`).  Fields are `Nat`
standing for `u8`/`u16`/`u32`/`u64`; serialization truncates with the
field's width exactly as the machine type would. -/
structure PacketHeader where
  magic : Nat
  opcode : Nat
  key_length : Nat
  extras_length : Nat
  data_type : Nat
  vbucket_id_or_status : Nat
  total_body_length : Nat
  opaq : Nat
  cas : Nat
deriving DecidableEq, Repr

/-- Big-endian one-byte serialization (`write_u8`). -/
def u8be (n : Nat) : List Nat := [n % 256]

/-- Big-endian two-byte serialization (`write_u16::<BigEndian>`). -/
def u16be (n : Nat) : List Nat := [n / 2 ^ 8 % 256, n % 256]

/-- Big-endian four-byte serialization (`write_u32::<BigEndian>`). -/
def u32be (n : Nat) : List Nat :=
  [n / 2 ^ 24 % 256, n / 2 ^ 16 % 256, n / 2 ^ 8 % 256, n % 256]

/-- Big-endian eight-byte serialization (`write_u64::<BigEndian>`). -/
def u64be (n : Nat) : List Nat :=
  [n / 2 ^ 56 % 256, n / 2 ^ 48 % 256, n / 2 ^ 40 % 256, n / 2 ^ 32 % 256,
   n / 2 ^ 24 % 256, n / 2 ^ 16 % 256, n / 2 ^ 8 % 256, n % 256]

/-- The 24 bytes `PacketHeader::write` emits, in field order: magic, opcode,
key_length, extras_length, data_type, vbucket_id_or_status,
total_body_length, opaq, cas — all big-endian. -/
def PacketHeader.toBytes (h : PacketHeader) : List Nat :=
  u8be h.magic ++ u8be h.opcode ++ u16be h.key_length ++ u8be h.extras_length ++
  u8be h.data_type ++ u16be h.vbucket_id_or_status ++ u32be h.total_body_length ++
  u32be h.opaq ++ u64be h.cas

/-- `PacketHeader::write`: appends the serialized header to the buffer
(the Rust writer is a `Vec<u8>`; in-memory writes are infallible). -/
def PacketHeader.write (h : PacketHeader) (buf : List Nat) : List Nat :=
  buf ++ h.toBytes

/-- `read_u8` from a byte reader: one byte or `UnexpectedEof`. -/
def readU8 : List Nat → Except McError (Nat × List Nat)
  | [] => .error .eof
  | b :: rest => .ok (b, rest)

/-- `read_u16::<BigEndian>` from a byte reader. -/
def readU16be : List Nat → Except McError (Nat × List Nat)
  | b1 :: b0 :: rest => .ok (b1 * 2 ^ 8 + b0, rest)
  | _ => .error .eof

/-- `read_u32::<BigEndian>` from a byte reader. -/
def readU32be : List Nat → Except McError (Nat × List Nat)
  | b3 :: b2 :: b1 :: b0 :: rest =>
      .ok (b3 * 2 ^ 24 + b2 * 2 ^ 16 + b1 * 2 ^ 8 + b0, rest)
  | _ => .error .eof

/-- `read_u64::<BigEndian>` from a byte reader. -/
def readU64be : List Nat → Except McError (Nat × List Nat)
  | b7 :: b6 :: b5 :: b4 :: b3 :: b2 :: b1 :: b0 :: rest =>
      .ok (b7 * 2 ^ 56 + b6 * 2 ^ 48 + b5 * 2 ^ 40 + b4 * 2 ^ 32 +
           b3 * 2 ^ 24 + b2 * 2 ^ 16 + b1 * 2 ^ 8 + b0, rest)
  | _ => .error .eof

/-- `PacketHeader::read`: reads the magic byte first and fails with the
bad-magic error unless it is the response magic `0x81`; only then reads the
remaining eight fields in order. -/
def PacketHeader.read (l : List Nat) : Except McError (PacketHeader × List Nat) := do
  let (magic, l) ← readU8 l
  if magic ≠ 0x81 then
    .error (.badMagic magic)
  else do
    let (opcode, l) ← readU8 l
    let (key_length, l) ← readU16be l
    let (extras_length, l) ← readU8 l
    let (data_type, l) ← readU8 l
    let (vbucket_id_or_status, l) ← readU16be l
    let (total_body_length, l) ← readU32be l
    let (opaq, l) ← readU32be l
    let (cas, l) ← readU64be l
    .ok (⟨magic, opcode, key_length, extras_length, data_type,
          vbucket_id_or_status, total_body_length, opaq, cas⟩, l)

/-- `NVALUES`: the key space size. -/
def NVALUES : Nat := 100000

/-- `PCT_SET` (USR model): write fraction numerator, out of 1000. -/
def PCT_SET : Nat := 2

/-- `VALUE_SIZE` (USR model): fixed value size. -/
def VALUE_SIZE : Nat := 2

/-- `KEY_SIZE` (USR model): fixed key size, also the ETC clamp lower bound. -/
def KEY_SIZE : Nat := 20

/-- `ETC_PCT_SET` (ETC model): write fraction numerator, out of 1000. -/
def ETC_PCT_SET : Nat := 30

/-- The key-size memory `ETC_KEY_PRELOAD`: slot index to last recorded key
size.  The Rust global is a `static mut [usize; NVALUES]`; slots are always
addressed modulo `NVALUES`, so a total function keeps the same behaviour. -/
def KeyMem : Type := Nat → Nat

/-- `ETC_KEY_PRELOAD`'s initial state: all zeros. -/
def initMem : KeyMem := fun _ => 0

/-- The digit bytes pushed by the first loop of `write_key`: decimal digits
of `key`, least-significant first, as ASCII (`48 + digit`); the loop pushes
at least one digit (key `0` gives `"0"`). -/
def pushDigits (k : Nat) : List Nat :=
  if h : k / 10 = 0 then [48 + k % 10]
  else (48 + k % 10) :: pushDigits (k / 10)
decreasing_by omega

/-- `write_key(buf, key, key_size)`: pushes the decimal digits of `key`
least-significant first, then pads with ASCII `'A'` (65) until `key_size`
bytes have been pushed (no padding when the digits already reach or exceed
`key_size`; the digits are never truncated). -/
def write_key (buf : List Nat) (key : Nat) (key_size : Nat) : List Nat :=
  buf ++ pushDigits key ++ List.replicate (key_size - (pushDigits key).length) 65

/-- `UDP_HEADER`: the fixed 8-byte datagram framing prefix. -/
def UDP_HEADER : List Nat := [0, 0, 0, 0, 0, 1, 0, 0]

/-- The conditional datagram prefix each builder prepends:
`if let Transport::Udp = tport { buf.extend_from_slice(UDP_HEADER) }`. -/
def framingBytes : Transport → List Nat
  | .Udp => UDP_HEADER
  | .Tcp => []

/-- Length of the transport prefix (8 for datagram, 0 for stream). -/
def framingLen : Transport → Nat
  | .Udp => 8
  | .Tcp => 0

/-- The synthetic value payload both set builders append:
`value_size` bytes with `byte[i] = ((key * i) >> (i % 4)) & 0xff`, the
multiplication wrapping in `u64`. -/
def valueBytes (key : Nat) (value_size : Nat) : List Nat :=
  (List.range value_size).map (fun i => key * i % 2 ^ 64 / 2 ^ (i % 4) % 256)

/-- The header `usr_set_request` builds: request magic, Set opcode, the
fixed USR key size, 8 extras bytes, body = 8 + KEY_SIZE + VALUE_SIZE,
remaining fields defaulted to 0. -/
def usr_set_header (opaq : Nat) : PacketHeader :=
  { magic := 0x80, opcode := 0x01, key_length := KEY_SIZE, extras_length := 8,
    data_type := 0, vbucket_id_or_status := 0,
    total_body_length := 8 + KEY_SIZE + VALUE_SIZE, opaq := opaq, cas := 0 }

/-- `usr_set_request(key, opaq, buf, tport)`: optional datagram prefix,
the Set header, 8 zero extras bytes (`write_u64(0)`), the encoded key at
the fixed USR size, then the synthetic value payload. -/
def usr_set_request (key : Nat) (opaq : Nat) (buf : List Nat)
    (tport : Transport) : List Nat :=
  let buf := buf ++ framingBytes tport
  let buf := (usr_set_header opaq).write buf
  let buf := buf ++ u64be 0
  let buf := write_key buf key KEY_SIZE
  buf ++ valueBytes key VALUE_SIZE

/-- The header the Get branch of `gen_usr_request` builds: Get opcode, the
fixed USR key size, no extras, body length = key length. -/
def usr_get_header (opaq : Nat) : PacketHeader :=
  { magic := 0x80, opcode := 0x00, key_length := KEY_SIZE, extras_length := 0,
    data_type := 0, vbucket_id_or_status := 0,
    total_body_length := KEY_SIZE, opaq := opaq, cas := 0 }

/-- `gen_usr_request(i, p, buf, tport)`: the low 32 bits of the packet's
randomness decide Set vs Get by `low32 % 1000 < PCT_SET`; the high 32 bits
modulo `NVALUES` select the key; `i as u32` is the opaq. -/
def gen_usr_request (i : Nat) (randomness : Nat) (buf : List Nat)
    (tport : Transport) : List Nat :=
  let low32 := randomness % 2 ^ 32
  let key := randomness / 2 ^ 32 % NVALUES
  if low32 % 1000 < PCT_SET then
    usr_set_request key (i % 2 ^ 32) buf tport
  else
    let buf := buf ++ framingBytes tport
    let buf := (usr_get_header (i % 2 ^ 32)).write buf
    write_key buf key KEY_SIZE

/-- The clamp `etc_set_request` applies to the sampled key size:
`usize::max(usize::min(sample, 256), KEY_SIZE)`, so the recorded size lies
in `[KEY_SIZE, 256] = [20, 256]`. -/
def etcClampKeySize (sample : Nat) : Nat := max (min sample 256) KEY_SIZE

/-- The header `etc_set_request` builds: request magic, Set opcode, the
clamped key size cast to `u16`, 8 extras bytes, body length
`(8 + key_size + value_size) as u32`, remaining fields defaulted to 0. -/
def etc_set_header (key_size value_size opaq : Nat) : PacketHeader :=
  { magic := 0x80, opcode := 0x01, key_length := key_size % 2 ^ 16,
    extras_length := 8, data_type := 0, vbucket_id_or_status := 0,
    total_body_length := (8 + key_size + value_size) % 2 ^ 32,
    opaq := opaq, cas := 0 }

/-- `etc_set_request(key, opaq, buf, tport)`.  The Rust function samples
`value_size` from the ETC value distribution and `key_size` from the GEV
key distribution; both draws are floating-point and external to the codec,
so they enter the model as the parameters `sampled_value_size` and
`sampled_key_size` (the natural numbers the casts `as usize` produced).
The function clamps the key sample, records it into slot `key % NVALUES`
of the key-size memory, then emits prefix, header, 8 zero extras bytes,
encoded key, and the synthetic payload.  Returns the buffer and the
updated memory. -/
def etc_set_request (key opaq : Nat) (buf : List Nat) (tport : Transport)
    (mem : KeyMem) (sampled_key_size sampled_value_size : Nat) :
    List Nat × KeyMem :=
  let buf := buf ++ framingBytes tport
  let value_size := sampled_value_size
  let key_size := etcClampKeySize sampled_key_size
  let mem : KeyMem := fun j => if j = key % NVALUES then key_size else mem j
  let buf := (etc_set_header key_size value_size opaq).write buf
  let buf := buf ++ u64be 0
  let buf := write_key buf key key_size
  (buf ++ valueBytes key value_size, mem)

/-- The header the Get branch of `gen_etc_request` builds: Get opcode,
`key_size` looked up from the key-size memory and cast to `u16`, no
extras, body length = that key size. -/
def etc_get_header (key_size opaq : Nat) : PacketHeader :=
  { magic := 0x80, opcode := 0x00, key_length := key_size,
    extras_length := 0, data_type := 0, vbucket_id_or_status := 0,
    total_body_length := key_size, opaq := opaq, cas := 0 }

/-- `gen_etc_request(i, p, buf, tport)`: the low 32 bits of the packet's
randomness decide Set vs Get by `low32 % 1000 < ETC_PCT_SET`; the high 32
bits modulo `NVALUES` select the key.  The Get branch reads
`ETC_KEY_PRELOAD[key % NVALUES] as u16` and uses it for both the header's
key length and the encoded key width. -/
def gen_etc_request (i : Nat) (randomness : Nat) (buf : List Nat)
    (tport : Transport) (mem : KeyMem)
    (sampled_key_size sampled_value_size : Nat) : List Nat × KeyMem :=
  let low32 := randomness % 2 ^ 32
  let key := randomness / 2 ^ 32 % NVALUES
  if low32 % 1000 < ETC_PCT_SET then
    etc_set_request key (i % 2 ^ 32) buf tport mem
      sampled_key_size sampled_value_size
  else
    let buf := buf ++ framingBytes tport
    let key_size := mem (key % NVALUES) % 2 ^ 16
    let buf := (etc_get_header key_size (i % 2 ^ 32)).write buf
    (write_key buf key key_size, mem)

/-- The datagram arm of `read_response`: `sock.read(&mut scratch[..32])`
receives one datagram, truncated to 32 bytes, into the front of `scratch`
(stale scratch contents beyond the received length are untouched); a
zero-length receive is EOF; fewer than 8 bytes is the short-packet error;
otherwise the header is parsed from `&scratch[8..]` and the status is
checked before returning the `opaq` correlation id. -/
def read_response_udp (dgram : List Nat) (scratch : List Nat) :
    Except McError Nat :=
  let len := min dgram.length 32
  let scratch := dgram.take len ++ scratch.drop len
  if len = 0 then .error .eof
  else if len < 8 then .error (.shortPacket len)
  else
    match PacketHeader.read (scratch.drop 8) with
    | .error e => .error e
    | .ok (hdr, _) =>
      if hdr.vbucket_id_or_status ≠ 0 then
        .error (.statusNotOk hdr.vbucket_id_or_status)
      else .ok hdr.opaq

/-- The stream arm of `read_response`: `read_exact` 24 header bytes (EOF if
the stream is shorter), parse them, `read_exact` `total_body_length` body
bytes (the mandatory body drain, its failure wrapped with the length), then
check the status and return the `opaq` correlation id.  The connection is
modelled as the list of bytes it will deliver. -/
def read_response_tcp (stream : List Nat) : Except McError Nat :=
  if stream.length < 24 then .error .eof
  else
    match PacketHeader.read (stream.take 24) with
    | .error e => .error e
    | .ok (hdr, _) =>
      if stream.length - 24 < hdr.total_body_length then
        .error (.bodyReadFailed hdr.total_body_length)
      else if hdr.vbucket_id_or_status ≠ 0 then
        .error (.statusNotOk hdr.vbucket_id_or_status)
      else .ok hdr.opaq

/-! ## Helper lemmas -/

/-- Unfolding equation for `pushDigits`. -/
lemma pushDigits_eq (k : Nat) :
    pushDigits k = if k / 10 = 0 then [48 + k % 10]
      else (48 + k % 10) :: pushDigits (k / 10) := by
  rw [pushDigits]; split <;> rfl

/-- The serialized header is exactly 24 bytes. -/
lemma toBytes_length (h : PacketHeader) : h.toBytes.length = 24 := by
  simp [PacketHeader.toBytes, u8be, u16be, u32be, u64be]

/-- Parsing the serialization of an in-range header with response magic
succeeds, recovers every field, and consumes exactly 24 bytes. -/
lemma read_toBytes (h : PacketHeader) (rest : List Nat)
    (hm : h.magic = 0x81) (h1 : h.opcode < 2 ^ 8) (h2 : h.key_length < 2 ^ 16)
    (h3 : h.extras_length < 2 ^ 8) (h4 : h.data_type < 2 ^ 8)
    (h5 : h.vbucket_id_or_status < 2 ^ 16) (h6 : h.total_body_length < 2 ^ 32)
    (h7 : h.opaq < 2 ^ 32) (h8 : h.cas < 2 ^ 64) :
    PacketHeader.read (h.toBytes ++ rest) = .ok (h, rest) := by
  obtain ⟨m, oc, kl, el, dt, st, tb, op, cs⟩ := h
  simp only at hm h1 h2 h3 h4 h5 h6 h7 h8
  subst hm
  simp only [PacketHeader.toBytes, u8be, u16be, u32be, u64be, List.cons_append,
    List.nil_append, PacketHeader.read, readU8, readU16be, readU32be, readU64be,
    Except.bind, Bind.bind, Except.instMonad, Except.map, Pure.pure, Except.pure]
  norm_num
  omega

/-- `pushDigits` always produces at least one byte. -/
lemma pushDigits_length_pos (k : Nat) : 1 ≤ (pushDigits k).length := by
  rw [pushDigits_eq]; split <;> simp

/-- A key below `10 ^ n` has at most `n` digit bytes (for `n ≥ 1`). -/
lemma pushDigits_length_le : ∀ n k : Nat, 1 ≤ n → k < 10 ^ n →
    (pushDigits k).length ≤ n := by
  intro n
  induction n with
  | zero => intro k h; omega
  | succ m ih =>
    intro k _ h
    rw [pushDigits_eq]
    split
    · simp
    · rename_i hne
      have hm : 1 ≤ m := by
        rcases Nat.eq_zero_or_pos m with h0 | h1
        · subst h0; norm_num at h; omega
        · exact h1
      have hps : (10 : Nat) ^ (m + 1) = 10 ^ m * 10 := pow_succ 10 m
      have hk : k / 10 < 10 ^ m := by omega
      have := ih (k / 10) hm hk
      simp only [List.length_cons]
      omega

/-- For a positive key, `pushDigits` is exactly the base-10 digit list of
the key (least-significant digit first), each digit offset to ASCII. -/
lemma pushDigits_eq_digits (k : Nat) (hk : 0 < k) :
    pushDigits k = (Nat.digits 10 k).map (fun d => 48 + d) := by
  induction k using pushDigits.induct with
  | case1 k h =>
    rw [pushDigits_eq, if_pos h, Nat.digits_def' (by norm_num : (1 : Nat) < 10) hk]
    have : k / 10 = 0 := h
    rw [this]
    simp
  | case2 k h ih =>
    rw [pushDigits_eq, if_neg h, Nat.digits_def' (by norm_num : (1 : Nat) < 10) hk]
    have := ih (by omega)
    simp [this]

/-- The digit-byte count equals the base-10 digit count, except that key 0
still produces one byte. -/
lemma pushDigits_length (k : Nat) :
    (pushDigits k).length = max 1 (Nat.digits 10 k).length := by
  rcases Nat.eq_zero_or_pos k with rfl | hk
  · rw [pushDigits_eq]; norm_num
  · rw [pushDigits_eq_digits k hk, List.length_map]
    have h0 : Nat.digits 10 k ≠ [] := Nat.digits_ne_nil_iff_ne_zero.mpr (by omega)
    have h1 : 1 ≤ (Nat.digits 10 k).length := List.length_pos.mpr h0
    omega

/-- `write_key` appends exactly `max (digit count) key_size` bytes. -/
lemma write_key_length (buf : List Nat) (key key_size : Nat) :
    (write_key buf key key_size).length =
      buf.length + max (pushDigits key).length key_size := by
  simp [write_key]
  omega

/-! ## Claim theorems -/

/-- **C2** (header round-trip): writing any in-range `PacketHeader` with
`PacketHeader.write`, overwriting the magic byte with the response magic
`0x81`, and parsing with `PacketHeader.read` succeeds, consumes exactly the
24 bytes, and returns a header identical in every field except the magic. -/
theorem header_write_read_roundtrip (h : PacketHeader)
    (h1 : h.opcode < 2 ^ 8) (h2 : h.key_length < 2 ^ 16)
    (h3 : h.extras_length < 2 ^ 8) (h4 : h.data_type < 2 ^ 8)
    (h5 : h.vbucket_id_or_status < 2 ^ 16) (h6 : h.total_body_length < 2 ^ 32)
    (h7 : h.opaq < 2 ^ 32) (h8 : h.cas < 2 ^ 64) :
    PacketHeader.read (0x81 :: (PacketHeader.write h []).drop 1) =
      .ok ({ h with magic := 0x81 }, []) := by
  have key : (0x81 : Nat) :: (PacketHeader.write h []).drop 1 =
      ({ h with magic := 0x81 } : PacketHeader).toBytes ++ [] := by
    obtain ⟨m, oc, kl, el, dt, st, tb, op, cs⟩ := h
    simp [PacketHeader.write, PacketHeader.toBytes, u8be, u16be, u32be, u64be]
  rw [key]
  exact read_toBytes _ _ rfl h1 h2 h3 h4 h5 h6 h7 h8

/-- Witness for C2 at a concrete header. -/
theorem header_write_read_roundtrip_witness :
    PacketHeader.read
        (0x81 :: (PacketHeader.write ⟨0x80, 1, 20, 8, 0, 0, 30, 7, 9⟩ []).drop 1) =
      .ok (⟨0x81, 1, 20, 8, 0, 0, 30, 7, 9⟩, []) :=
  header_write_read_roundtrip ⟨0x80, 1, 20, 8, 0, 0, 30, 7, 9⟩
    (by decide) (by decide) (by decide) (by decide) (by decide)
    (by decide) (by decide) (by decide)

/-- **C8** (bad magic rejected first): parsing any byte list whose first
byte is not the response magic `0x81` fails with the bad-magic framing
error, whatever follows — even an empty tail — so no other header field is
read or interpreted. -/
theorem read_bad_magic (b : Nat) (rest : List Nat) (hb : b ≠ 0x81) :
    PacketHeader.read (b :: rest) = .error (.badMagic b) := by
  simp [PacketHeader.read, readU8, Except.bind, Bind.bind, Except.instMonad, hb]

/-- Witness for C8: the request magic `0x80` alone is rejected. -/
theorem read_bad_magic_witness :
    PacketHeader.read [0x80] = .error (.badMagic 0x80) :=
  read_bad_magic 0x80 [] (by decide)

/-- **C3** (end-to-end Set scenario): `usr_set_request(key=5, opaque=1)`
over the Stream transport, from an empty buffer, yields exactly
24 + 8 + 20 + 2 = 54 bytes; byte 1 is the Set opcode `0x01` and bytes 2–3,
big-endian, are `0x0014` (key length 20). -/
theorem usr_set_request_concrete :
    (usr_set_request 5 1 [] .Tcp).length = 54 ∧
    usr_set_request 5 1 [] .Tcp =
      [0x80, 0x01, 0x00, 0x14, 8, 0, 0, 0, 0, 0, 0, 30, 0, 0, 0, 1,
       0, 0, 0, 0, 0, 0, 0, 0, 0, 0, 0, 0, 0, 0, 0, 0, 53] ++
        List.replicate 19 65 ++ [0, 2] ∧
    (usr_set_request 5 1 [] .Tcp)[1]? = some 0x01 ∧
    (usr_set_request 5 1 [] .Tcp)[2]? = some 0x00 ∧
    (usr_set_request 5 1 [] .Tcp)[3]? = some 0x14 ∧
    ((usr_set_request 5 1 [] .Tcp)[2]?.getD 0) * 256 +
      (usr_set_request 5 1 [] .Tcp)[3]?.getD 0 = 20 := by
  have h5 : pushDigits 5 = [53] := by rw [pushDigits_eq]; norm_num
  have e : usr_set_request 5 1 [] .Tcp =
      [0x80, 0x01, 0x00, 0x14, 8, 0, 0, 0, 0, 0, 0, 30, 0, 0, 0, 1,
       0, 0, 0, 0, 0, 0, 0, 0, 0, 0, 0, 0, 0, 0, 0, 0, 53] ++
        List.replicate 19 65 ++ [0, 2] := by
    simp [usr_set_request, usr_set_header, PacketHeader.write, PacketHeader.toBytes,
      u8be, u16be, u32be, u64be, framingBytes, write_key, h5, valueBytes,
      KEY_SIZE, VALUE_SIZE]
    decide
  rw [e]
  refine ⟨by decide, rfl, by decide, by decide, by decide, by decide⟩

/-- **C4** (key encoding): `write_key` is a pure function; whenever the
target size is at least the decimal digit count of the key it appends
exactly `target_size` bytes — the base-10 digits least-significant first
(ASCII), then `'A'` (65) padding; in particular key 5 at size 20 gives
byte `'5'` (53) followed by 19 bytes of `'A'`. -/
theorem write_key_spec (k s : Nat) (hs : max 1 (Nat.digits 10 k).length ≤ s) :
    (write_key [] k s).length = s ∧
    (0 < k → write_key [] k s =
      (Nat.digits 10 k).map (fun d => 48 + d) ++
        List.replicate (s - (Nat.digits 10 k).length) 65) ∧
    (k = 0 → write_key [] k s = 48 :: List.replicate (s - 1) 65) ∧
    write_key [] 5 20 = 53 :: List.replicate 19 65 := by
  refine ⟨?_, ?_, ?_, ?_⟩
  · rw [write_key_length]
    rw [pushDigits_length]
    simp
    omega
  · intro hk
    simp [write_key, pushDigits_eq_digits k hk, List.length_map]
  · intro hk; subst hk
    simp [write_key, pushDigits_eq]
  · have h5 : pushDigits 5 = [53] := by rw [pushDigits_eq]; norm_num
    simp [write_key, h5]

/-- Witness for C4 at key 5, size 20. -/
theorem write_key_spec_witness :
    max 1 (Nat.digits 10 5).length ≤ 20 ∧
      ((write_key [] 5 20).length = 20 ∧
        (0 < 5 → write_key [] 5 20 =
          (Nat.digits 10 5).map (fun d => 48 + d) ++
            List.replicate (20 - (Nat.digits 10 5).length) 65) ∧
        ((5 : Nat) = 0 → write_key [] 5 20 = 48 :: List.replicate (20 - 1) 65) ∧
        write_key [] 5 20 = 53 :: List.replicate 19 65) :=
  ⟨by norm_num, write_key_spec 5 20 (by norm_num)⟩

/-- The framing prefix a builder prepends has length `framingLen`. -/
lemma framingBytes_length (t : Transport) :
    (framingBytes t).length = framingLen t := by cases t <;> rfl

/-- The ETC clamp lands in `[20, 256]` for every sample. -/
lemma etcClamp_bounds (s : Nat) :
    20 ≤ etcClampKeySize s ∧ etcClampKeySize s ≤ 256 := by
  simp only [etcClampKeySize, KEY_SIZE]; omega

/-- The synthetic payload has exactly the requested length. -/
lemma valueBytes_length (k n : Nat) : (valueBytes k n).length = n := by
  simp [valueBytes]

/-- **C1** (`total_body_length` invariant): every Set header built — by
`usr_set_request` (fields fixed) or `etc_set_request` (clamped key sample,
any value sample small enough not to overflow the `u32` cast) — has
`extras_length = 8` and `total_body_length = extras_length + key_length +
value_length`; moreover the built buffer, over either transport, carries
exactly `total_body_length` bytes after its 24-byte header. -/
theorem set_total_body_length (key opq sk sv : Nat) (buf : List Nat)
    (tport : Transport) (mem : KeyMem)
    (hkey : key < 10 ^ 20) (hv : 8 + etcClampKeySize sk + sv < 2 ^ 32) :
    ((usr_set_header opq).extras_length = 8 ∧
     (usr_set_header opq).total_body_length =
       (usr_set_header opq).extras_length + (usr_set_header opq).key_length +
         VALUE_SIZE ∧
     (usr_set_request key opq buf tport).length =
       buf.length + framingLen tport + 24 +
         (usr_set_header opq).total_body_length) ∧
    ((etc_set_header (etcClampKeySize sk) sv opq).extras_length = 8 ∧
     (etc_set_header (etcClampKeySize sk) sv opq).key_length =
       etcClampKeySize sk ∧
     (etc_set_header (etcClampKeySize sk) sv opq).total_body_length =
       8 + etcClampKeySize sk + sv ∧
     (etc_set_request key opq buf tport mem sk sv).1.length =
       buf.length + framingLen tport + 24 +
         (etc_set_header (etcClampKeySize sk) sv opq).total_body_length) := by
  have hdig : (pushDigits key).length ≤ 20 :=
    pushDigits_length_le 20 key (by norm_num) hkey
  have hcl := etcClamp_bounds sk
  refine ⟨⟨rfl, rfl, ?_⟩, ⟨rfl, ?_, ?_, ?_⟩⟩
  · simp [usr_set_request, PacketHeader.write, toBytes_length, u64be,
      write_key_length, valueBytes_length, framingBytes_length,
      usr_set_header, KEY_SIZE, VALUE_SIZE]
    omega
  · simp [etc_set_header]; omega
  · simp [etc_set_header]; omega
  · simp [etc_set_request, PacketHeader.write, toBytes_length, u64be,
      write_key_length, valueBytes_length, framingBytes_length,
      etc_set_header]
    omega

/-- Witness for C1 at key 5, opaque 1, ETC samples 100 and 6. -/
theorem set_total_body_length_witness :
    ((5 : Nat) < 10 ^ 20 ∧ 8 + etcClampKeySize 100 + 6 < 2 ^ 32) ∧
    (((usr_set_header 1).extras_length = 8 ∧
      (usr_set_header 1).total_body_length =
        (usr_set_header 1).extras_length + (usr_set_header 1).key_length +
          VALUE_SIZE ∧
      (usr_set_request 5 1 [] .Tcp).length =
        ([] : List Nat).length + framingLen .Tcp + 24 +
          (usr_set_header 1).total_body_length) ∧
     ((etc_set_header (etcClampKeySize 100) 6 1).extras_length = 8 ∧
      (etc_set_header (etcClampKeySize 100) 6 1).key_length =
        etcClampKeySize 100 ∧
      (etc_set_header (etcClampKeySize 100) 6 1).total_body_length =
        8 + etcClampKeySize 100 + 6 ∧
      (etc_set_request 5 1 [] .Tcp initMem 100 6).1.length =
        ([] : List Nat).length + framingLen .Tcp + 24 +
          (etc_set_header (etcClampKeySize 100) 6 1).total_body_length)) :=
  ⟨⟨by norm_num, by decide⟩,
    set_total_body_length 5 1 100 6 [] .Tcp initMem (by norm_num) (by decide)⟩

/-- **C7** (status check and correlation id): for every well-formed
response header (response magic, in-range fields) delivered with exactly
`total_body_length` body bytes on the stream transport, or as a full
32-byte datagram after an 8-byte framing prefix, `read_response` fails with
the status error carrying the status code when `vbucket_id_or_status` is
not `NoError` (0), and otherwise returns the header's `opaque` field as the
correlation id. -/
theorem read_response_status (h : PacketHeader) (body : List Nat) (pre : List Nat)
    (scratch : List Nat)
    (hm : h.magic = 0x81) (h1 : h.opcode < 2 ^ 8) (h2 : h.key_length < 2 ^ 16)
    (h3 : h.extras_length < 2 ^ 8) (h4 : h.data_type < 2 ^ 8)
    (h5 : h.vbucket_id_or_status < 2 ^ 16) (h6 : h.total_body_length < 2 ^ 32)
    (h7 : h.opaq < 2 ^ 32) (h8 : h.cas < 2 ^ 64)
    (hb : body.length = h.total_body_length) (hpre : pre.length = 8) :
    read_response_tcp (h.toBytes ++ body) =
      (if h.vbucket_id_or_status ≠ 0 then .error (.statusNotOk h.vbucket_id_or_status)
       else .ok h.opaq) ∧
    read_response_udp (pre ++ h.toBytes) scratch =
      (if h.vbucket_id_or_status ≠ 0 then .error (.statusNotOk h.vbucket_id_or_status)
       else .ok h.opaq) := by
  constructor
  · unfold read_response_tcp
    have hlen : (h.toBytes ++ body).length = 24 + body.length := by
      simp [toBytes_length]
    rw [if_neg (by omega)]
    have htake : (h.toBytes ++ body).take 24 = h.toBytes :=
      List.take_left' (toBytes_length h)
    rw [htake]
    have hread : PacketHeader.read h.toBytes = .ok (h, []) := by
      have := read_toBytes h [] hm h1 h2 h3 h4 h5 h6 h7 h8
      simpa using this
    rw [hread]
    show (if (h.toBytes ++ body).length - 24 < h.total_body_length
        then (Except.error (McError.bodyReadFailed h.total_body_length) :
          Except McError Nat)
        else if h.vbucket_id_or_status ≠ 0
          then Except.error (McError.statusNotOk h.vbucket_id_or_status)
          else Except.ok h.opaq) =
      (if h.vbucket_id_or_status ≠ 0
        then Except.error (McError.statusNotOk h.vbucket_id_or_status)
        else Except.ok h.opaq)
    rw [if_neg (by omega)]
  · have hlen32 : (pre ++ h.toBytes).length = 32 := by
      simp [toBytes_length, hpre]
    have htake : (pre ++ h.toBytes).take 32 = pre ++ h.toBytes :=
      List.take_of_length_le (le_of_eq hlen32)
    have hdrop : (pre ++ h.toBytes ++ scratch.drop 32).drop 8 =
        h.toBytes ++ scratch.drop 32 := by
      rw [List.append_assoc]
      exact List.drop_left' hpre
    simp only [read_response_udp, hlen32, Nat.min_self, htake, hdrop,
      read_toBytes h (scratch.drop 32) hm h1 h2 h3 h4 h5 h6 h7 h8]
    norm_num

/-- Witness for C7: status 0 with opaque 7 returns 7; status 1
(KeyNotFound) yields the status error carrying code 1. -/
theorem read_response_status_witness :
    read_response_tcp ((⟨0x81, 0, 0, 0, 0, 0, 0, 7, 0⟩ : PacketHeader).toBytes ++ []) =
      .ok 7 ∧
    read_response_tcp ((⟨0x81, 0, 0, 0, 0, 1, 0, 7, 0⟩ : PacketHeader).toBytes ++ []) =
      .error (.statusNotOk 1) := by
  constructor
  · have := (read_response_status ⟨0x81, 0, 0, 0, 0, 0, 0, 7, 0⟩ []
      (List.replicate 8 0) [] rfl (by decide) (by decide) (by decide) (by decide)
      (by decide) (by decide) (by decide) (by decide) (by decide) (by decide)).1
    simpa using this
  · have := (read_response_status ⟨0x81, 0, 0, 0, 0, 1, 0, 7, 0⟩ []
      (List.replicate 8 0) [] rfl (by decide) (by decide) (by decide) (by decide)
      (by decide) (by decide) (by decide) (by decide) (by decide) (by decide)).1
    simpa using this

/-! ## Byte-extraction helpers -/

/-- Dropping the caller buffer, the framing prefix and `m` more bytes lands
`m` bytes into the region a builder appended after the prefix. -/
lemma drop_buf_framing (buf fb X : List Nat) (pl m : Nat) (hfb : fb.length = pl) :
    (buf ++ (fb ++ X)).drop (buf.length + pl + m) = X.drop m := by
  rw [show buf.length + pl + m = buf.length + (pl + m) by omega, List.drop_append]
  rw [show pl + m = fb.length + m by omega, List.drop_append]

/-- Byte 1 of a serialized header is the opcode. -/
lemma toBytes_opcode_byte (h : PacketHeader) (rest : List Nat) :
    ((h.toBytes ++ rest).drop 1).head? = some (h.opcode % 256) := by
  simp [PacketHeader.toBytes, u8be, u16be, u32be, u64be]

/-- Bytes 2–3 of a serialized header are the big-endian key length. -/
lemma toBytes_keylen_bytes (h : PacketHeader) (rest : List Nat) :
    ((h.toBytes ++ rest).drop 2).take 2 = u16be h.key_length := by
  simp [PacketHeader.toBytes, u8be, u16be, u32be, u64be]

/-- Bytes 8–11 of a serialized header are the big-endian body length. -/
lemma toBytes_totallen_bytes (h : PacketHeader) (rest : List Nat) :
    ((h.toBytes ++ rest).drop 8).take 4 = u32be h.total_body_length := by
  simp [PacketHeader.toBytes, u8be, u16be, u32be, u64be]

/-- Skipping the 24-byte header and the 8 extras bytes of a Set request
reaches its key/value region. -/
lemma drop_set_body (h : PacketHeader) (K : List Nat) :
    (h.toBytes ++ (u64be 0 ++ K)).drop 32 = K := by
  rw [show (32 : Nat) = h.toBytes.length + 8 by rw [toBytes_length]]
  rw [List.drop_append]
  exact List.drop_left' rfl

/-- Skipping the 24-byte header of a Get request reaches its key region. -/
lemma drop_get_body (h : PacketHeader) (K : List Nat) :
    (h.toBytes ++ K).drop 24 = K :=
  List.drop_left' (toBytes_length h)

/-- A failing `readU8` only reports EOF. -/
lemma readU8_error (l : List Nat) (e : McError) (hw : readU8 l = .error e) :
    e = .eof := by
  cases l <;> simp [readU8] at hw
  tauto

/-- A failing `readU16be` only reports EOF. -/
lemma readU16be_error (l : List Nat) (e : McError) (hw : readU16be l = .error e) :
    e = .eof := by
  rcases l with _ | ⟨a, _ | ⟨b, t⟩⟩ <;> simp [readU16be] at hw <;> tauto

/-- A failing `readU32be` only reports EOF. -/
lemma readU32be_error (l : List Nat) (e : McError) (hw : readU32be l = .error e) :
    e = .eof := by
  rcases l with _ | ⟨a, _ | ⟨b, _ | ⟨c, _ | ⟨d, t⟩⟩⟩⟩ <;>
    simp [readU32be] at hw <;> tauto

/-- A failing `readU64be` only reports EOF. -/
lemma readU64be_error (l : List Nat) (e : McError) (hw : readU64be l = .error e) :
    e = .eof := by
  rcases l with _ | ⟨a, _ | ⟨b, _ | ⟨c, _ | ⟨d, _ | ⟨f, _ | ⟨g, _ | ⟨p, _ | ⟨q, t⟩⟩⟩⟩⟩⟩⟩⟩ <;>
    simp [readU64be] at hw <;> tauto

/-- Every failure of `PacketHeader.read` is an EOF from an exhausted reader
or the bad-magic error; no other error kind can come out of the parser. -/
lemma read_error_shape (l : List Nat) (e : McError)
    (hw : PacketHeader.read l = .error e) :
    e = .eof ∨ ∃ b, e = .badMagic b := by
  simp only [PacketHeader.read, Except.bind, Bind.bind, Except.instMonad] at hw
  repeat' split at hw
  all_goals first
    | (injection hw with hw1; subst hw1;
        exact Or.inl (readU8_error _ _ (by assumption)))
    | (injection hw with hw1; subst hw1;
        exact Or.inl (readU16be_error _ _ (by assumption)))
    | (injection hw with hw1; subst hw1;
        exact Or.inl (readU32be_error _ _ (by assumption)))
    | (injection hw with hw1; subst hw1;
        exact Or.inl (readU64be_error _ _ (by assumption)))
    | (injection hw with hw1; subst hw1; exact Or.inr ⟨_, rfl⟩)
    | simp at hw

/-- **C6** (key-size memory consistency, single-threaded): an ETC Write for
key `key` records the clamped sampled size (in `[20, 256]`) into slot
`key % NVALUES`; a subsequent `gen_etc_request` that classifies as a Get
and whose selected key maps to the same slot builds a Get header whose
`key_length` wire bytes (offsets 2–3 after the framing prefix, big-endian)
are exactly that recorded size. -/
theorem etc_mem_consistency (key opq sk sv i rnd sk2 sv2 : Nat)
    (buf buf2 : List Nat) (tport tport2 : Transport) (mem : KeyMem)
    (hget : ¬ rnd % 2 ^ 32 % 1000 < 30)
    (hslot : rnd / 2 ^ 32 % NVALUES = key % NVALUES) :
    (etc_set_request key opq buf tport mem sk sv).2 (key % NVALUES) =
      etcClampKeySize sk ∧
    20 ≤ etcClampKeySize sk ∧ etcClampKeySize sk ≤ 256 ∧
    ((gen_etc_request i rnd buf2 tport2
          (etc_set_request key opq buf tport mem sk sv).2 sk2 sv2).1.drop
        (buf2.length + framingLen tport2 + 2)).take 2 =
      u16be (etcClampKeySize sk) := by
  have hcl := etcClamp_bounds sk
  refine ⟨?_, hcl.1, hcl.2, ?_⟩
  · simp [etc_set_request]
  · have hks : etcClampKeySize sk % 2 ^ 16 = etcClampKeySize sk := by omega
    have hout : (gen_etc_request i rnd buf2 tport2
        (etc_set_request key opq buf tport mem sk sv).2 sk2 sv2).1 =
        buf2 ++ (framingBytes tport2 ++
          ((etc_get_header (etcClampKeySize sk) (i % 2 ^ 32)).toBytes ++
            (pushDigits (rnd / 2 ^ 32 % NVALUES) ++
              List.replicate
                (etcClampKeySize sk -
                  (pushDigits (rnd / 2 ^ 32 % NVALUES)).length) 65))) := by
      simp [gen_etc_request, ETC_PCT_SET, hget, hslot, etc_set_request, hks,
        write_key, PacketHeader.write, List.append_assoc, -Nat.reducePow]
    rw [hout, drop_buf_framing buf2 (framingBytes tport2) _ (framingLen tport2) 2
      (framingBytes_length tport2)]
    exact toBytes_keylen_bytes _ _

/-- Witness for C6: Write to key 7 with sample 100, then a Get whose
randomness selects slot 7 and classifies as a read. -/
theorem etc_mem_consistency_witness :
    (¬ (7 * 2 ^ 32 + 999) % 2 ^ 32 % 1000 < 30 ∧
      (7 * 2 ^ 32 + 999) / 2 ^ 32 % NVALUES = 7 % NVALUES) ∧
    ((etc_set_request 7 3 [] .Tcp initMem 100 6).2 (7 % NVALUES) =
        etcClampKeySize 100 ∧
      20 ≤ etcClampKeySize 100 ∧ etcClampKeySize 100 ≤ 256 ∧
      ((gen_etc_request 1 (7 * 2 ^ 32 + 999) [] .Tcp
            (etc_set_request 7 3 [] .Tcp initMem 100 6).2 0 0).1.drop
          (([] : List Nat).length + framingLen .Tcp + 2)).take 2 =
        u16be (etcClampKeySize 100)) :=
  ⟨⟨by decide, by decide⟩,
    etc_mem_consistency 7 3 100 6 1 (7 * 2 ^ 32 + 999) 0 0 [] [] .Tcp .Tcp
      initMem (by decide) (by decide)⟩

/-- **C5 counterexample**: an 8-byte datagram — far shorter than the
32-byte framing+header minimum the claim requires rejected — is *not*
rejected with a framing error: parsing proceeds at scratch offset 8 over
stale scratch bytes and here even succeeds, returning correlation id 7. -/
theorem udp_short_datagram_not_framing_error :
    ([0, 0, 0, 0, 0, 1, 0, 0] : List Nat).length < 32 ∧
    read_response_udp [0, 0, 0, 0, 0, 1, 0, 0]
        (List.replicate 8 0 ++
          (⟨0x81, 0, 0, 0, 0, 0, 0, 7, 0⟩ : PacketHeader).toBytes) = .ok 7 := by
  constructor
  · decide
  · rfl

/-- **C5 amended**: on the datagram transport, `read_response` fails with
EOF exactly when the receive returns zero bytes and with the short-packet
framing error exactly when it returns 1–7 bytes (too short for the 8-byte
framing prefix); every datagram of at least 8 bytes proceeds to header
parsing at scratch offset 8 — stale scratch bytes beyond the datagram
length included — rather than being rejected, as shown for an 8-byte
datagram whose scratch tail holds a response header. -/
theorem read_response_udp_framing (dgram scratch junk : List Nat)
    (h : PacketHeader)
    (hm : h.magic = 0x81) (h1 : h.opcode < 2 ^ 8) (h2 : h.key_length < 2 ^ 16)
    (h3 : h.extras_length < 2 ^ 8) (h4 : h.data_type < 2 ^ 8)
    (h5 : h.vbucket_id_or_status < 2 ^ 16) (h6 : h.total_body_length < 2 ^ 32)
    (h7 : h.opaq < 2 ^ 32) (h8 : h.cas < 2 ^ 64) (hj : junk.length = 8) :
    (dgram.length = 0 → read_response_udp dgram scratch = .error .eof) ∧
    (0 < dgram.length → dgram.length < 8 →
      read_response_udp dgram scratch = .error (.shortPacket dgram.length)) ∧
    (∀ b : Nat, 8 ≤ dgram.length →
      read_response_udp dgram scratch ≠ .error (.shortPacket b)) ∧
    (dgram.length = 8 →
      read_response_udp dgram (junk ++ h.toBytes) =
        (if h.vbucket_id_or_status ≠ 0
          then .error (.statusNotOk h.vbucket_id_or_status)
          else .ok h.opaq)) := by
  refine ⟨?_, ?_, ?_, ?_⟩
  · intro h0
    simp only [read_response_udp, h0]
    norm_num
  · intro hp hlt
    have hmin : min dgram.length 32 = dgram.length := by omega
    simp only [read_response_udp, hmin]
    rw [if_neg (by omega), if_pos (by omega)]
  · intro b hge
    have hmin0 : ¬ min dgram.length 32 = 0 := by omega
    have hmin8 : ¬ min dgram.length 32 < 8 := by omega
    simp only [read_response_udp]
    rw [if_neg hmin0, if_neg hmin8]
    cases hparse : PacketHeader.read
        ((dgram.take (min dgram.length 32) ++
          scratch.drop (min dgram.length 32)).drop 8) with
    | error e =>
      rcases read_error_shape _ _ hparse with he | ⟨bb, he⟩ <;> subst he <;> simp
    | ok p =>
      split
      · simp_all
      · split <;> simp
  · intro hd8
    have hmin : min dgram.length 32 = 8 := by omega
    have htake : dgram.take 8 = dgram := List.take_of_length_le (by omega)
    have hdropj : (junk ++ h.toBytes).drop 8 = h.toBytes := List.drop_left' hj
    have hdropd : (dgram ++ h.toBytes).drop 8 = h.toBytes := by
      rw [← hd8]; exact List.drop_left dgram h.toBytes
    have hread : PacketHeader.read h.toBytes = .ok (h, []) := by
      have := read_toBytes h [] hm h1 h2 h3 h4 h5 h6 h7 h8
      simpa using this
    simp only [read_response_udp, hmin, htake, hdropj, hdropd, hread]
    norm_num

/-- Witness for the amended C5 at an 8-byte datagram. -/
theorem read_response_udp_framing_witness :
    (([0, 0, 0, 0, 0, 1, 0, 0] : List Nat).length = 0 →
      read_response_udp [0, 0, 0, 0, 0, 1, 0, 0] [] = .error .eof) ∧
    (0 < ([0, 0, 0, 0, 0, 1, 0, 0] : List Nat).length →
      ([0, 0, 0, 0, 0, 1, 0, 0] : List Nat).length < 8 →
      read_response_udp [0, 0, 0, 0, 0, 1, 0, 0] [] =
        .error (.shortPacket ([0, 0, 0, 0, 0, 1, 0, 0] : List Nat).length)) ∧
    (∀ b : Nat, 8 ≤ ([0, 0, 0, 0, 0, 1, 0, 0] : List Nat).length →
      read_response_udp [0, 0, 0, 0, 0, 1, 0, 0] [] ≠
        .error (.shortPacket b)) ∧
    (([0, 0, 0, 0, 0, 1, 0, 0] : List Nat).length = 8 →
      read_response_udp [0, 0, 0, 0, 0, 1, 0, 0]
          (List.replicate 8 0 ++
            (⟨0x81, 0, 0, 0, 0, 0, 0, 7, 0⟩ : PacketHeader).toBytes) =
        (if (⟨0x81, 0, 0, 0, 0, 0, 0, 7, 0⟩ : PacketHeader).vbucket_id_or_status ≠ 0
          then .error (.statusNotOk
            (⟨0x81, 0, 0, 0, 0, 0, 0, 7, 0⟩ : PacketHeader).vbucket_id_or_status)
          else .ok (⟨0x81, 0, 0, 0, 0, 0, 0, 7, 0⟩ : PacketHeader).opaq)) :=
  read_response_udp_framing [0, 0, 0, 0, 0, 1, 0, 0] [] (List.replicate 8 0)
    ⟨0x81, 0, 0, 0, 0, 0, 0, 7, 0⟩ rfl (by decide) (by decide) (by decide)
    (by decide) (by decide) (by decide) (by decide) (by decide) (by decide)

/-- **C9** (classification and key selection): both generators place the
Set opcode `0x01` at wire byte 1 (after the framing prefix) exactly when
the low 32 bits of the randomness, modulo 1000, are below the model's
write threshold (2 for USR, 30 for ETC), else the Get opcode `0x00`; and
in every branch the bytes after the header (and extras for a Set) are the
encoding of the key selected as the high 32 bits modulo `NVALUES`. -/
theorem gen_request_classify (i rnd sk sv : Nat) (buf : List Nat)
    (tport : Transport) (mem : KeyMem) :
    (((gen_usr_request i rnd buf tport).drop
        (buf.length + framingLen tport + 1)).head? =
      some (if rnd % 2 ^ 32 % 1000 < PCT_SET then 0x01 else 0x00)) ∧
    (rnd % 2 ^ 32 % 1000 < PCT_SET →
      (gen_usr_request i rnd buf tport).drop
          (buf.length + framingLen tport + 32) =
        write_key [] (rnd / 2 ^ 32 % NVALUES) KEY_SIZE ++
          valueBytes (rnd / 2 ^ 32 % NVALUES) VALUE_SIZE) ∧
    (¬ rnd % 2 ^ 32 % 1000 < PCT_SET →
      (gen_usr_request i rnd buf tport).drop
          (buf.length + framingLen tport + 24) =
        write_key [] (rnd / 2 ^ 32 % NVALUES) KEY_SIZE) ∧
    (((gen_etc_request i rnd buf tport mem sk sv).1.drop
        (buf.length + framingLen tport + 1)).head? =
      some (if rnd % 2 ^ 32 % 1000 < ETC_PCT_SET then 0x01 else 0x00)) ∧
    (rnd % 2 ^ 32 % 1000 < ETC_PCT_SET →
      (gen_etc_request i rnd buf tport mem sk sv).1.drop
          (buf.length + framingLen tport + 32) =
        write_key [] (rnd / 2 ^ 32 % NVALUES) (etcClampKeySize sk) ++
          valueBytes (rnd / 2 ^ 32 % NVALUES) sv) ∧
    (¬ rnd % 2 ^ 32 % 1000 < ETC_PCT_SET →
      (gen_etc_request i rnd buf tport mem sk sv).1.drop
          (buf.length + framingLen tport + 24) =
        write_key [] (rnd / 2 ^ 32 % NVALUES)
          (mem (rnd / 2 ^ 32 % NVALUES % NVALUES) % 2 ^ 16)) := by
  have husr : ∀ hc : rnd % 2 ^ 32 % 1000 < 2,
      gen_usr_request i rnd buf tport =
        buf ++ (framingBytes tport ++
          ((usr_set_header (i % 2 ^ 32)).toBytes ++
            (u64be 0 ++
              (write_key [] (rnd / 2 ^ 32 % NVALUES) KEY_SIZE ++
                valueBytes (rnd / 2 ^ 32 % NVALUES) VALUE_SIZE)))) := by
    intro hc
    simp [gen_usr_request, usr_set_request, PCT_SET, hc, write_key,
      PacketHeader.write, List.append_assoc, -Nat.reducePow]
  have husr2 : ∀ hc : ¬ rnd % 2 ^ 32 % 1000 < 2,
      gen_usr_request i rnd buf tport =
        buf ++ (framingBytes tport ++
          ((usr_get_header (i % 2 ^ 32)).toBytes ++
            write_key [] (rnd / 2 ^ 32 % NVALUES) KEY_SIZE)) := by
    intro hc
    simp [gen_usr_request, PCT_SET, hc, write_key,
      PacketHeader.write, List.append_assoc, -Nat.reducePow]
  have hetc : ∀ hc : rnd % 2 ^ 32 % 1000 < 30,
      (gen_etc_request i rnd buf tport mem sk sv).1 =
        buf ++ (framingBytes tport ++
          ((etc_set_header (etcClampKeySize sk) sv (i % 2 ^ 32)).toBytes ++
            (u64be 0 ++
              (write_key [] (rnd / 2 ^ 32 % NVALUES) (etcClampKeySize sk) ++
                valueBytes (rnd / 2 ^ 32 % NVALUES) sv)))) := by
    intro hc
    simp [gen_etc_request, etc_set_request, ETC_PCT_SET, hc, write_key,
      PacketHeader.write, List.append_assoc, -Nat.reducePow]
  have hetc2 : ∀ hc : ¬ rnd % 2 ^ 32 % 1000 < 30,
      (gen_etc_request i rnd buf tport mem sk sv).1 =
        buf ++ (framingBytes tport ++
          ((etc_get_header (mem (rnd / 2 ^ 32 % NVALUES % NVALUES) % 2 ^ 16)
              (i % 2 ^ 32)).toBytes ++
            write_key [] (rnd / 2 ^ 32 % NVALUES)
              (mem (rnd / 2 ^ 32 % NVALUES % NVALUES) % 2 ^ 16))) := by
    intro hc
    simp [gen_etc_request, ETC_PCT_SET, hc, write_key,
      PacketHeader.write, List.append_assoc, -Nat.reducePow]
  refine ⟨?_, ?_, ?_, ?_, ?_, ?_⟩
  · by_cases hc : rnd % 2 ^ 32 % 1000 < PCT_SET
    · rw [husr hc, if_pos hc,
        drop_buf_framing buf (framingBytes tport) _ (framingLen tport) 1
          (framingBytes_length tport), toBytes_opcode_byte]
      rfl
    · rw [husr2 hc, if_neg hc,
        drop_buf_framing buf (framingBytes tport) _ (framingLen tport) 1
          (framingBytes_length tport), toBytes_opcode_byte]
      rfl
  · intro hc
    rw [husr hc,
      drop_buf_framing buf (framingBytes tport) _ (framingLen tport) 32
        (framingBytes_length tport), drop_set_body]
  · intro hc
    rw [husr2 hc,
      drop_buf_framing buf (framingBytes tport) _ (framingLen tport) 24
        (framingBytes_length tport), drop_get_body]
  · by_cases hc : rnd % 2 ^ 32 % 1000 < ETC_PCT_SET
    · rw [hetc hc, if_pos hc,
        drop_buf_framing buf (framingBytes tport) _ (framingLen tport) 1
          (framingBytes_length tport), toBytes_opcode_byte]
      rfl
    · rw [hetc2 hc, if_neg hc,
        drop_buf_framing buf (framingBytes tport) _ (framingLen tport) 1
          (framingBytes_length tport), toBytes_opcode_byte]
      rfl
  · intro hc
    rw [hetc hc,
      drop_buf_framing buf (framingBytes tport) _ (framingLen tport) 32
        (framingBytes_length tport), drop_set_body]
  · intro hc
    rw [hetc2 hc,
      drop_buf_framing buf (framingBytes tport) _ (framingLen tport) 24
        (framingBytes_length tport), drop_get_body]

/-- Witness for C9: randomness 1 classifies as Write in both models,
randomness 999 as Read; key 0 is selected in each case. -/
theorem gen_request_classify_witness :
    ((gen_usr_request 1 1 [] .Tcp).drop
        (([] : List Nat).length + framingLen .Tcp + 32) =
      write_key [] (1 / 2 ^ 32 % NVALUES) KEY_SIZE ++
        valueBytes (1 / 2 ^ 32 % NVALUES) VALUE_SIZE) ∧
    ((gen_usr_request 1 999 [] .Tcp).drop
        (([] : List Nat).length + framingLen .Tcp + 24) =
      write_key [] (999 / 2 ^ 32 % NVALUES) KEY_SIZE) ∧
    ((gen_etc_request 1 1 [] .Tcp initMem 50 6).1.drop
        (([] : List Nat).length + framingLen .Tcp + 32) =
      write_key [] (1 / 2 ^ 32 % NVALUES) (etcClampKeySize 50) ++
        valueBytes (1 / 2 ^ 32 % NVALUES) 6) ∧
    ((gen_etc_request 1 999 [] .Tcp initMem 50 6).1.drop
        (([] : List Nat).length + framingLen .Tcp + 24) =
      write_key [] (999 / 2 ^ 32 % NVALUES)
        (initMem (999 / 2 ^ 32 % NVALUES % NVALUES) % 2 ^ 16)) :=
  ⟨(gen_request_classify 1 1 50 6 [] .Tcp initMem).2.1 (by decide),
   (gen_request_classify 1 999 50 6 [] .Tcp initMem).2.2.1 (by decide),
   (gen_request_classify 1 1 50 6 [] .Tcp initMem).2.2.2.2.1 (by decide),
   (gen_request_classify 1 999 50 6 [] .Tcp initMem).2.2.2.2.2 (by decide)⟩

/-- **C10** (no truncation, zero-size Get): `write_key` appends exactly
`max (digit count) target_size` bytes — all digits are emitted even past
the target size; consequently an ETC Get for a key whose memory slot is
still 0 declares `key_length = 0` and `total_body_length = 0` on the wire
yet still appends every digit byte of the key after the header, so the
bytes appended after the header exceed the declared body length. -/
theorem write_key_never_truncates (i rnd sk sv : Nat) (buf : List Nat)
    (tport : Transport) (mem : KeyMem)
    (hget : ¬ rnd % 2 ^ 32 % 1000 < 30)
    (hmem0 : mem (rnd / 2 ^ 32 % NVALUES) = 0) :
    (∀ (b : List Nat) (k s : Nat),
      (write_key b k s).length = b.length + max (pushDigits k).length s) ∧
    (((gen_etc_request i rnd buf tport mem sk sv).1.drop
        (buf.length + framingLen tport + 2)).take 2 = u16be 0) ∧
    (((gen_etc_request i rnd buf tport mem sk sv).1.drop
        (buf.length + framingLen tport + 8)).take 4 = u32be 0) ∧
    ((gen_etc_request i rnd buf tport mem sk sv).1.length =
      buf.length + framingLen tport + 24 +
        (pushDigits (rnd / 2 ^ 32 % NVALUES)).length) ∧
    (buf.length + framingLen tport + 24 <
      (gen_etc_request i rnd buf tport mem sk sv).1.length) := by
  have hout : (gen_etc_request i rnd buf tport mem sk sv).1 =
      buf ++ (framingBytes tport ++
        ((etc_get_header 0 (i % 2 ^ 32)).toBytes ++
          pushDigits (rnd / 2 ^ 32 % NVALUES))) := by
    simp [gen_etc_request, ETC_PCT_SET, hget, hmem0, write_key,
      PacketHeader.write, List.append_assoc, -Nat.reducePow]
  have hpos := pushDigits_length_pos (rnd / 2 ^ 32 % NVALUES)
  refine ⟨?_, ?_, ?_, ?_, ?_⟩
  · intro b k s
    rw [write_key_length]
  · rw [hout,
      drop_buf_framing buf (framingBytes tport) _ (framingLen tport) 2
        (framingBytes_length tport), toBytes_keylen_bytes]
    rfl
  · rw [hout,
      drop_buf_framing buf (framingBytes tport) _ (framingLen tport) 8
        (framingBytes_length tport), toBytes_totallen_bytes]
    rfl
  · rw [hout]
    simp [toBytes_length, framingBytes_length, -Nat.reducePow]
    omega
  · rw [hout]
    simp [toBytes_length, framingBytes_length, -Nat.reducePow]
    omega

/-- Witness for C10: randomness 999 classifies as Read and selects key 0,
whose slot in the all-zero initial memory is 0. -/
theorem write_key_never_truncates_witness :
    (¬ (999 : Nat) % 2 ^ 32 % 1000 < 30 ∧
      initMem (999 / 2 ^ 32 % NVALUES) = 0) ∧
    ((∀ (b : List Nat) (k s : Nat),
      (write_key b k s).length = b.length + max (pushDigits k).length s) ∧
    (((gen_etc_request 1 999 [] .Tcp initMem 50 6).1.drop
        (([] : List Nat).length + framingLen .Tcp + 2)).take 2 = u16be 0) ∧
    (((gen_etc_request 1 999 [] .Tcp initMem 50 6).1.drop
        (([] : List Nat).length + framingLen .Tcp + 8)).take 4 = u32be 0) ∧
    ((gen_etc_request 1 999 [] .Tcp initMem 50 6).1.length =
      ([] : List Nat).length + framingLen .Tcp + 24 +
        (pushDigits (999 / 2 ^ 32 % NVALUES)).length) ∧
    (([] : List Nat).length + framingLen .Tcp + 24 <
      (gen_etc_request 1 999 [] .Tcp initMem 50 6).1.length)) :=
  ⟨⟨by decide, rfl⟩,
    write_key_never_truncates 1 999 50 6 [] .Tcp initMem (by decide) rfl⟩

end Memcached
